import Mathlib

/-!
# Terminal Space Invader — verification of the simulation engine

Shallow embedding of `src/main.rs` (crate `terminal_space_invader`).
The game state and the tick-transition function `update_state` are
translated from the Rust source; `u16`/`u8`/`u32` fields become `Nat`
(the development proves the subtractions the code performs never
underflow on reachable states, so truncated subtraction agrees with
the machine semantics).  Wall-clock time is passed explicitly: `now`
is a monotonic timestamp in nanoseconds, and the Rust
`Instant::now().duration_since(state.last_alien_shot)` becomes
`now - last_alien_shot`.
-/

namespace SpaceInvader

/-- Constant `MAX_PLAYER_X` from the source (board is 0..=38, width 39). -/
def MAX_PLAYER_X : Nat := 38

/-- Constant `MAX_PLAYER_Y` from the source (the player's fixed row). -/
def MAX_PLAYER_Y : Nat := 20

/-- Constant `ALIEN_ROWS` from the source. -/
def ALIEN_ROWS : Nat := 2

/-- Constant `ALIEN_COLS` from the source. -/
def ALIEN_COLS : Nat := 6

/-- Constant `HORIZONTAL_SPACING` from the source. -/
def HORIZONTAL_SPACING : Nat := 5

/-- Constant `VERTICAL_SPACING` from the source. -/
def VERTICAL_SPACING : Nat := 4

/-- Constant `MAX_SHOTS` from the source. -/
def MAX_SHOTS : Nat := 10

/-- Constant `ALIEN_FIRE_INTERVAL` from the source, in nanoseconds (750 ms). -/
def ALIEN_FIRE_INTERVAL : Nat := 750000000

/-- Constant `INITIAL_LIVES` from the source. -/
def INITIAL_LIVES : Nat := 3

/-- The `struct Player` of the source. -/
structure Player where
  x : Nat
  y : Nat
deriving DecidableEq, Repr

/-- The `struct Alien` of the source. -/
structure Alien where
  x : Nat
  y : Nat
deriving DecidableEq, Repr

/-- The `struct Shot` (player shot) of the source. -/
structure Shot where
  x : Nat
  y : Nat
deriving DecidableEq, Repr

/-- The `struct AlienShot` of the source. -/
structure AlienShot where
  x : Nat
  y : Nat
deriving DecidableEq, Repr

/-- The `enum AlienDirection` of the source. -/
inductive AlienDirection where
  | Left : AlienDirection
  | Right : AlienDirection
deriving DecidableEq, Repr

/-- The `struct GameState` of the source.  `last_alien_shot : Instant`
becomes a nanosecond timestamp. -/
structure GameState where
  player : Player
  shots : List Shot
  aliens : List Alien
  alien_shots : List AlienShot
  last_alien_shot : Nat
  alien_direction : AlienDirection
  score : Nat
  lives : Nat
  game_over : Bool
deriving DecidableEq, Repr

/-- Function `spawn_new_wave` from the source: clear both shot lists and
repopulate the aliens row-major at `(col*5+2, row*4+2)`. -/
def spawn_new_wave (s : GameState) : GameState :=
  { s with
    shots := [],
    alien_shots := [],
    aliens :=
      (List.range ALIEN_ROWS).flatMap (fun row =>
        (List.range ALIEN_COLS).map (fun col =>
          { x := col * HORIZONTAL_SPACING + 2,
            y := row * VERTICAL_SPACING + 2 : Alien })) }

/-- Step 1 of `update_state`: move every player shot up one cell and
drop those with `y ≤ 1` (`retain |shot| shot.y > 1`); move every alien
shot down one cell and drop those with `y ≥ MAX_PLAYER_Y + 2`
(`retain |shot| shot.y < MAX_PLAYER_Y + 2`).  The Rust guards each
block with a non-emptiness test, reproduced here. -/
def moveShots (s : GameState) : GameState :=
  let shots' :=
    if s.shots.isEmpty then s.shots
    else (s.shots.map (fun sh => { sh with y := sh.y - 1 })).filter
      (fun sh => 1 < sh.y)
  let alien_shots' :=
    if s.alien_shots.isEmpty then s.alien_shots
    else (s.alien_shots.map (fun sh => { sh with y := sh.y + 1 })).filter
      (fun sh => sh.y < MAX_PLAYER_Y + 2)
  { s with shots := shots', alien_shots := alien_shots' }

/-- The hit test of step 2 of `update_state`: an alien shot overlaps
the player's 3x2 box. -/
def hitsPlayer (p : Player) (sh : AlienShot) : Bool :=
  p.x ≤ sh.x && sh.x < p.x + 3 && p.y ≤ sh.y && sh.y < p.y + 2

/-- Step 2 of `update_state`: `retain` removes every alien shot that
overlaps the player while a single boolean records whether any hit;
on a hit, decrement lives, reset the player's x to `MAX_PLAYER_X / 2`,
and set `game_over` when lives reach 0 (the caller then returns). -/
def playerHitStep (s : GameState) : GameState :=
  let player_hit := s.alien_shots.any (fun sh => hitsPlayer s.player sh)
  let kept := s.alien_shots.filter (fun sh => !hitsPlayer s.player sh)
  if player_hit then
    let lives' := s.lives - 1
    { s with
      alien_shots := kept,
      lives := lives',
      player := { s.player with x := MAX_PLAYER_X / 2 },
      game_over := if lives' = 0 then true else s.game_over }
  else
    { s with alien_shots := kept }

/-- The hit test of step 3 of `update_state`: a player shot's cell is
inside an alien's 3x2 box. -/
def hitsAlien (sh : Shot) (a : Alien) : Bool :=
  a.x ≤ sh.x && sh.x < a.x + 3 && a.y ≤ sh.y && sh.y < a.y + 2

/-- The inner alien loop of step 3 for one shot, over the aliens
paired with their `aliens_alive` flags: skip dead aliens, and on the
first live overlapping alien mark it dead and `break`.  Returns the
updated flag list and whether the shot was consumed. -/
def shootOne (sh : Shot) : List (Alien × Bool) → List (Alien × Bool) × Bool
  | [] => ([], false)
  | (a, alive) :: rest =>
    if alive && hitsAlien sh a then
      ((a, false) :: rest, true)
    else
      let r := shootOne sh rest
      ((a, alive) :: r.1, r.2)

/-- The outer shot loop of step 3: thread the liveness flags through
the shots in order, recording for each shot whether it is kept
(`shots_to_keep`) and adding 10 to the score for every kill. -/
def runShots : List Shot → List (Alien × Bool) →
    List (Alien × Bool) × List Bool × Nat
  | [], m => (m, [], 0)
  | sh :: rest, m =>
    let r1 := shootOne sh m
    let r2 := runShots rest r1.1
    (r2.1, (!r1.2) :: r2.2.1, (if r1.2 then 10 else 0) + r2.2.2)

/-- The compaction at the end of step 3: keep the entries whose
parallel boolean flag is true (the `shots_to_keep` filter). -/
def filterByMask {α : Type} : List α → List Bool → List α
  | [], _ => []
  | _ :: _, [] => []
  | x :: xs, b :: bs =>
    if b then x :: filterByMask xs bs else filterByMask xs bs

/-- Step 3 of `update_state`: only when both the shot list and the
alien list are non-empty, run the mark phase (`runShots` over aliens
all initially alive) and then compact both lists. -/
def collisionStep (s : GameState) : GameState :=
  if !s.shots.isEmpty && !s.aliens.isEmpty then
    let r := runShots s.shots (s.aliens.map (fun a => (a, true)))
    { s with
      aliens := (r.1.filter (fun p => p.2)).map (fun p => p.1),
      shots := filterByMask s.shots r.2.1,
      score := s.score + r.2.2 }
  else s

/-- The column-range test of step 4: `(alien_b.x..alien_b.x + 3).contains(&alien_a.x)`. -/
def inColRange (b : Alien) (ax : Nat) : Bool :=
  b.x ≤ ax && ax < b.x + 3

/-- The front-rank test of step 4: alien `a` is a potential shooter
iff no alien `b` whose column range contains `a.x` is strictly lower
(has strictly greater `y`). -/
def isFrontRank (aliens : List Alien) (a : Alien) : Bool :=
  !aliens.any (fun b => inColRange b a.x && a.y < b.y)

/-- Step 4 of `update_state`: when the cooldown has elapsed and the
swarm is non-empty, collect the front-rank aliens, pick one by the
elapsed-nanosecond count modulo the candidate count, push one alien
shot at `(shooter.x + 1, shooter.y + 2)` and reset the timestamp. -/
def fireStep (now : Nat) (s : GameState) : GameState :=
  if decide (ALIEN_FIRE_INTERVAL < now - s.last_alien_shot) && !s.aliens.isEmpty then
    let potential_shooters := s.aliens.filter (fun a => isFrontRank s.aliens a)
    if potential_shooters.isEmpty then s
    else
      let now_nanos := now - s.last_alien_shot
      let shooter :=
        potential_shooters.getD (now_nanos % potential_shooters.length)
          { x := 0, y := 0 }
      { s with
        alien_shots := s.alien_shots ++ [{ x := shooter.x + 1, y := shooter.y + 2 }],
        last_alien_shot := now }
  else s

/-- The boundary test of step 6: some alien is at `x == 0` moving
Left, or at `x ≥ MAX_PLAYER_X - 1` moving Right (the loop with
`break` is an existential over the alien list). -/
def wallHit (s : GameState) : Bool :=
  match s.alien_direction with
  | AlienDirection.Left => s.aliens.any (fun a => a.x == 0)
  | AlienDirection.Right => s.aliens.any (fun a => MAX_PLAYER_X - 1 ≤ a.x)

/-- Direction flip on a wall hit. -/
def flipDir : AlienDirection → AlienDirection
  | AlienDirection.Left => AlienDirection.Right
  | AlienDirection.Right => AlienDirection.Left

/-- The descent loop of step 6: each alien in order gains `y += 1`;
as soon as one alien's new bottom edge (`y + 1`) reaches the player's
row the function stops (the Rust `return`), leaving the remaining
aliens unmoved, and reports the game over.  Returns the updated alien
list and whether the loop aborted with a game over. -/
def descendAliens (py : Nat) : List Alien → List Alien × Bool
  | [] => ([], false)
  | a :: rest =>
    let a' := { a with y := a.y + 1 }
    if py ≤ a'.y + 1 then (a' :: rest, true)
    else
      let r := descendAliens py rest
      (a' :: r.1, r.2)

/-- Step 6 of `update_state`: on a wall hit, flip the direction and
run the descent loop (which may set `game_over` and stop early);
otherwise shift every alien one cell in the current direction. -/
def moveAliens (s : GameState) : GameState :=
  if wallHit s then
    let r := descendAliens s.player.y s.aliens
    { s with
      alien_direction := flipDir s.alien_direction,
      aliens := r.1,
      game_over := r.2 || s.game_over }
  else
    { s with
      aliens := s.aliens.map (fun a =>
        match s.alien_direction with
        | AlienDirection.Left => { a with x := a.x - 1 }
        | AlienDirection.Right => { a with x := a.x + 1 }) }

/-- Function `update_state` from the source: a no-op on terminal states, then
steps 1-6 in order with the two early returns (player death after
step 2, wave spawn after step 5). -/
def update_state (now : Nat) (s : GameState) : GameState :=
  if s.game_over then s
  else
    let s1 := moveShots s
    let s2 := playerHitStep s1
    if s2.game_over then s2
    else
      let s3 := collisionStep s2
      let s4 := fireStep now s3
      if s4.aliens.isEmpty then spawn_new_wave s4
      else moveAliens s4

/-- The discrete input intents of the driver loop (`main`'s `match getch()`). -/
inductive Intent where
  | MoveLeft : Intent
  | MoveRight : Intent
  | Fire : Intent
  | NoOp : Intent
deriving DecidableEq, Repr

/-- The input handling of the driver loop in `main`: move the player
within `[0, MAX_PLAYER_X - 2]`, or push a new shot at
`(player.x + 1, player.y - 1)` when under the cap; every branch is
gated on `!game_over`. -/
def handleInput (i : Intent) (s : GameState) : GameState :=
  match i with
  | Intent.MoveLeft =>
    if 0 < s.player.x && !s.game_over then
      { s with player := { s.player with x := s.player.x - 1 } }
    else s
  | Intent.MoveRight =>
    if s.player.x < MAX_PLAYER_X - 2 && !s.game_over then
      { s with player := { s.player with x := s.player.x + 1 } }
    else s
  | Intent.Fire =>
    if s.shots.length < MAX_SHOTS && !s.game_over then
      { s with shots := s.shots ++ [{ x := s.player.x + 1, y := s.player.y - 1 }] }
    else s
  | Intent.NoOp => s

/-- The initial state built in `main` (including the immediate
`spawn_new_wave` call). -/
def initState : GameState :=
  spawn_new_wave
    { player := { x := MAX_PLAYER_X / 2, y := MAX_PLAYER_Y },
      shots := [],
      alien_shots := [],
      last_alien_shot := 0,
      aliens := [],
      alien_direction := AlienDirection.Right,
      score := 0,
      lives := INITIAL_LIVES,
      game_over := false }

/-- States reachable by the driver loop: the initial state, closed
under ticks (at any timestamp) and under input handling. -/
inductive Reachable : GameState → Prop where
  | init : Reachable initState
  | tick : ∀ (s : GameState) (now : Nat), Reachable s → Reachable (update_state now s)
  | input : ∀ (s : GameState) (i : Intent), Reachable s → Reachable (handleInput i s)

/-! ## Frame lemmas for the individual steps -/

@[simp] lemma moveShots_player (s : GameState) : (moveShots s).player = s.player := rfl

@[simp] lemma moveShots_aliens (s : GameState) : (moveShots s).aliens = s.aliens := rfl

@[simp] lemma moveShots_lives (s : GameState) : (moveShots s).lives = s.lives := rfl

@[simp] lemma moveShots_game_over (s : GameState) : (moveShots s).game_over = s.game_over := rfl

@[simp] lemma moveShots_score (s : GameState) : (moveShots s).score = s.score := rfl

@[simp] lemma moveShots_dir (s : GameState) :
    (moveShots s).alien_direction = s.alien_direction := rfl

@[simp] lemma playerHitStep_shots (s : GameState) : (playerHitStep s).shots = s.shots := by
  simp only [playerHitStep]; split <;> rfl

@[simp] lemma playerHitStep_aliens (s : GameState) : (playerHitStep s).aliens = s.aliens := by
  simp only [playerHitStep]; split <;> rfl

@[simp] lemma playerHitStep_score (s : GameState) : (playerHitStep s).score = s.score := by
  simp only [playerHitStep]; split <;> rfl

@[simp] lemma playerHitStep_dir (s : GameState) :
    (playerHitStep s).alien_direction = s.alien_direction := by
  simp only [playerHitStep]; split <;> rfl

@[simp] lemma playerHitStep_player_y (s : GameState) :
    (playerHitStep s).player.y = s.player.y := by
  simp only [playerHitStep]; split <;> rfl

@[simp] lemma collisionStep_alien_shots (s : GameState) :
    (collisionStep s).alien_shots = s.alien_shots := by
  simp only [collisionStep]; split <;> rfl

@[simp] lemma collisionStep_player (s : GameState) :
    (collisionStep s).player = s.player := by
  simp only [collisionStep]; split <;> rfl

@[simp] lemma collisionStep_lives (s : GameState) : (collisionStep s).lives = s.lives := by
  simp only [collisionStep]; split <;> rfl

@[simp] lemma collisionStep_game_over (s : GameState) :
    (collisionStep s).game_over = s.game_over := by
  simp only [collisionStep]; split <;> rfl

@[simp] lemma collisionStep_dir (s : GameState) :
    (collisionStep s).alien_direction = s.alien_direction := by
  simp only [collisionStep]; split <;> rfl

@[simp] lemma fireStep_shots (now : Nat) (s : GameState) :
    (fireStep now s).shots = s.shots := by
  simp only [fireStep]; split
  · split <;> rfl
  · rfl

@[simp] lemma fireStep_aliens (now : Nat) (s : GameState) :
    (fireStep now s).aliens = s.aliens := by
  simp only [fireStep]; split
  · split <;> rfl
  · rfl

@[simp] lemma fireStep_player (now : Nat) (s : GameState) :
    (fireStep now s).player = s.player := by
  simp only [fireStep]; split
  · split <;> rfl
  · rfl

@[simp] lemma fireStep_lives (now : Nat) (s : GameState) :
    (fireStep now s).lives = s.lives := by
  simp only [fireStep]; split
  · split <;> rfl
  · rfl

@[simp] lemma fireStep_game_over (now : Nat) (s : GameState) :
    (fireStep now s).game_over = s.game_over := by
  simp only [fireStep]; split
  · split <;> rfl
  · rfl

@[simp] lemma fireStep_score (now : Nat) (s : GameState) :
    (fireStep now s).score = s.score := by
  simp only [fireStep]; split
  · split <;> rfl
  · rfl

@[simp] lemma fireStep_dir (now : Nat) (s : GameState) :
    (fireStep now s).alien_direction = s.alien_direction := by
  simp only [fireStep]; split
  · split <;> rfl
  · rfl

@[simp] lemma moveAliens_shots (s : GameState) : (moveAliens s).shots = s.shots := by
  simp only [moveAliens]; split <;> rfl

@[simp] lemma moveAliens_alien_shots (s : GameState) :
    (moveAliens s).alien_shots = s.alien_shots := by
  simp only [moveAliens]; split <;> rfl

@[simp] lemma moveAliens_player (s : GameState) : (moveAliens s).player = s.player := by
  simp only [moveAliens]; split <;> rfl

@[simp] lemma moveAliens_lives (s : GameState) : (moveAliens s).lives = s.lives := by
  simp only [moveAliens]; split <;> rfl

@[simp] lemma moveAliens_score (s : GameState) : (moveAliens s).score = s.score := by
  simp only [moveAliens]; split <;> rfl

@[simp] lemma spawn_new_wave_player (s : GameState) :
    (spawn_new_wave s).player = s.player := rfl

@[simp] lemma spawn_new_wave_lives (s : GameState) :
    (spawn_new_wave s).lives = s.lives := rfl

@[simp] lemma spawn_new_wave_game_over (s : GameState) :
    (spawn_new_wave s).game_over = s.game_over := rfl

@[simp] lemma spawn_new_wave_dir (s : GameState) :
    (spawn_new_wave s).alien_direction = s.alien_direction := rfl

@[simp] lemma spawn_new_wave_shots (s : GameState) : (spawn_new_wave s).shots = [] := rfl

@[simp] lemma spawn_new_wave_alien_shots (s : GameState) :
    (spawn_new_wave s).alien_shots = [] := rfl

/-! ## The shot-vs-alien mark phase -/

/-- Number of aliens still flagged alive. -/
def aliveCount (l : List (Alien × Bool)) : Nat := l.countP (fun p => p.2)

lemma shootOne_fst (sh : Shot) (l : List (Alien × Bool)) :
    (shootOne sh l).1.map Prod.fst = l.map Prod.fst := by
  induction l with
  | nil => rfl
  | cons hd tl ih =>
    obtain ⟨a, alive⟩ := hd
    simp only [shootOne]
    split
    · simp
    · simpa using ih

lemma shootOne_false (sh : Shot) (l : List (Alien × Bool))
    (h : (shootOne sh l).2 = false) : (shootOne sh l).1 = l := by
  induction l with
  | nil => rfl
  | cons hd tl ih =>
    obtain ⟨a, alive⟩ := hd
    cases hc : (alive && hitsAlien sh a) with
    | true => simp [shootOne, hc] at h
    | false =>
      simp only [shootOne, hc, Bool.false_eq_true, if_false] at h ⊢
      rw [ih h]

lemma shootOne_true (sh : Shot) (l : List (Alien × Bool))
    (h : (shootOne sh l).2 = true) :
    aliveCount (shootOne sh l).1 + 1 = aliveCount l := by
  induction l with
  | nil => simp [shootOne] at h
  | cons hd tl ih =>
    obtain ⟨a, alive⟩ := hd
    cases hc : (alive && hitsAlien sh a) with
    | true =>
      have ha := (Bool.and_eq_true _ _ |>.mp hc).1
      have hb := (Bool.and_eq_true _ _ |>.mp hc).2
      simp [shootOne, hc, aliveCount, List.countP_cons, ha, hb]
    | false =>
      simp only [shootOne, hc, Bool.false_eq_true, if_false] at h ⊢
      have := ih h
      simp only [aliveCount, List.countP_cons] at this ⊢
      omega

lemma runShots_fst (shots : List Shot) (m : List (Alien × Bool)) :
    (runShots shots m).1.map Prod.fst = m.map Prod.fst := by
  induction shots generalizing m with
  | nil => rfl
  | cons sh rest ih =>
    simp only [runShots]
    rw [ih, shootOne_fst]

lemma runShots_alive_le (shots : List Shot) (m : List (Alien × Bool)) :
    aliveCount (runShots shots m).1 ≤ aliveCount m := by
  induction shots generalizing m with
  | nil => simp [runShots]
  | cons sh rest ih =>
    simp only [runShots]
    rcases h : (shootOne sh m).2 with _ | _
    · rw [shootOne_false sh m h]
      exact ih m
    · have h1 := shootOne_true sh m h
      have h2 := ih (shootOne sh m).1
      omega

lemma runShots_score (shots : List Shot) (m : List (Alien × Bool)) :
    (runShots shots m).2.2 = 10 * (aliveCount m - aliveCount (runShots shots m).1) := by
  induction shots generalizing m with
  | nil => simp [runShots]
  | cons sh rest ih =>
    simp only [runShots]
    rcases h : (shootOne sh m).2 with _ | _
    · rw [shootOne_false sh m h]
      simpa using ih m
    · have h1 := shootOne_true sh m h
      have h2 := runShots_alive_le rest (shootOne sh m).1
      rw [if_pos rfl, ih]
      omega

lemma runShots_keeps_length (shots : List Shot) (m : List (Alien × Bool)) :
    (runShots shots m).2.1.length = shots.length := by
  induction shots generalizing m with
  | nil => rfl
  | cons sh rest ih => simp [runShots, ih]

lemma filterByMask_sublist {α : Type} (l : List α) (bs : List Bool) :
    (filterByMask l bs).Sublist l := by
  induction l generalizing bs with
  | nil => simp [filterByMask]
  | cons x xs ih =>
    cases bs with
    | nil => exact List.nil_sublist _
    | cons b rest =>
      simp only [filterByMask]
      split
      · exact List.Sublist.cons₂ x (ih rest)
      · exact List.Sublist.cons x (ih rest)

lemma runShots_keep_kills (shots : List Shot) (m : List (Alien × Bool)) :
    (filterByMask shots (runShots shots m).2.1).length
      + (aliveCount m - aliveCount (runShots shots m).1) = shots.length := by
  induction shots generalizing m with
  | nil => simp [runShots, filterByMask]
  | cons sh rest ih =>
    simp only [runShots]
    rcases h : (shootOne sh m).2 with _ | _
    · rw [shootOne_false sh m h]
      have := ih m
      simp [filterByMask]
      omega
    · have h1 := shootOne_true sh m h
      have h2 := runShots_alive_le rest (shootOne sh m).1
      have h3 := ih (shootOne sh m).1
      simp only [Bool.not_true, filterByMask, Bool.false_eq_true, if_false, List.length_cons]
      omega

lemma aliveCount_map_true (l : List Alien) :
    aliveCount (l.map (fun a => (a, true))) = l.length := by
  induction l with
  | nil => rfl
  | cons a tl ih => simp [aliveCount, List.countP_cons, ih.symm]

lemma alive_filter_length (m : List (Alien × Bool)) :
    ((m.filter (fun p => p.2)).map (fun p => p.1)).length = aliveCount m := by
  simp [aliveCount, List.countP_eq_length_filter]

lemma alive_filter_sublist (m : List (Alien × Bool)) :
    ((m.filter (fun p => p.2)).map (fun p => p.1)).Sublist (m.map Prod.fst) := by
  have h1 : (m.filter (fun p => p.2)).Sublist m := List.filter_sublist m
  exact h1.map Prod.fst

/-- The behaviour the spec ascribes to one shot: kill the first enemy
in iteration order that is still alive and whose 3x2 box contains the
shot's cell, leaving every other entry untouched. -/
def specShootOne (sh : Shot) (l : List (Alien × Bool)) : List (Alien × Bool) × Bool :=
  match l.findIdx? (fun p => p.2 && hitsAlien sh p.1) with
  | none => (l, false)
  | some j =>
    (l.set j ((l.getD j ({ x := 0, y := 0 }, false)).1, false), true)

lemma shootOne_eq_spec (sh : Shot) (l : List (Alien × Bool)) :
    shootOne sh l = specShootOne sh l := by
  induction l with
  | nil => rfl
  | cons hd tl ih =>
    obtain ⟨a, alive⟩ := hd
    cases hc : (alive && hitsAlien sh a) with
    | true =>
      simp only [shootOne, hc, if_true, specShootOne, List.findIdx?_cons, hc]
      rfl
    | false =>
      simp only [shootOne, hc, Bool.false_eq_true, if_false]
      simp only [specShootOne, List.findIdx?_cons, hc, Bool.false_eq_true, if_false,
        List.findIdx?_start_succ]
      rw [ih]
      simp only [specShootOne]
      cases hidx : tl.findIdx? (fun p => p.2 && hitsAlien sh p.1) with
      | none => simp [hidx]
      | some j => simp [hidx]

lemma collisionStep_shots_sublist (s : GameState) :
    (collisionStep s).shots.Sublist s.shots := by
  unfold collisionStep
  split
  · exact filterByMask_sublist _ _
  · exact List.Sublist.refl _

lemma collisionStep_aliens_sublist (s : GameState) :
    (collisionStep s).aliens.Sublist s.aliens := by
  unfold collisionStep
  split
  · refine (alive_filter_sublist _).trans ?_
    rw [runShots_fst, List.map_map]
    have hcomp : (Prod.fst ∘ fun a : Alien => (a, true)) = id := rfl
    rw [hcomp, List.map_id]
  · exact List.Sublist.refl _

lemma collisionStep_run (s : GameState) (h1 : s.shots ≠ []) (h2 : s.aliens ≠ []) :
    (collisionStep s).score
        = s.score + 10 * (s.aliens.length - (collisionStep s).aliens.length) ∧
    (collisionStep s).shots.length
        + (s.aliens.length - (collisionStep s).aliens.length) = s.shots.length := by
  have hg : (!s.shots.isEmpty && !s.aliens.isEmpty) = true := by
    simp [h1, h2]
  unfold collisionStep
  rw [if_pos hg]
  dsimp only
  rw [alive_filter_length]
  constructor
  · rw [runShots_score, aliveCount_map_true]
  · rw [← aliveCount_map_true s.aliens]
    exact runShots_keep_kills s.shots _

lemma fireStep_cases (now : Nat) (s : GameState) :
    fireStep now s = s ∨
    ∃ shooter : Alien, shooter ∈ s.aliens ∧ isFrontRank s.aliens shooter = true ∧
      fireStep now s = { s with
        alien_shots := s.alien_shots ++ [{ x := shooter.x + 1, y := shooter.y + 2 }],
        last_alien_shot := now } := by
  simp only [fireStep]
  split
  · split
    · left; rfl
    · rename_i he
      right
      have hne : s.aliens.filter (fun a => isFrontRank s.aliens a) ≠ [] := by
        simpa [List.isEmpty_iff] using he
      have hlen : 0 < (s.aliens.filter (fun a => isFrontRank s.aliens a)).length :=
        List.length_pos.mpr hne
      have hlt : (now - s.last_alien_shot)
          % (s.aliens.filter (fun a => isFrontRank s.aliens a)).length
          < (s.aliens.filter (fun a => isFrontRank s.aliens a)).length :=
        Nat.mod_lt _ hlen
      have hmem : (s.aliens.filter (fun a => isFrontRank s.aliens a)).getD
          ((now - s.last_alien_shot)
            % (s.aliens.filter (fun a => isFrontRank s.aliens a)).length)
          { x := 0, y := 0 }
          ∈ s.aliens.filter (fun a => isFrontRank s.aliens a) := by
        rw [List.getD_eq_getElem?_getD, List.getElem?_eq_getElem hlt]
        exact List.getElem_mem hlt
      have hsplit := List.mem_filter.mp hmem
      exact ⟨_, hsplit.1, hsplit.2, rfl⟩
  · left; rfl

/-! ## The descent loop of the swarm-movement step -/

lemma descendAliens_x (py : Nat) (l : List Alien) :
    (descendAliens py l).1.map Alien.x = l.map Alien.x := by
  induction l with
  | nil => rfl
  | cons a tl ih =>
    simp only [descendAliens]
    split
    · simp
    · simpa using ih

lemma descendAliens_false (py : Nat) (l : List Alien)
    (h : (descendAliens py l).2 = false) :
    (descendAliens py l).1 = l.map (fun a => { x := a.x, y := a.y + 1 }) ∧
    ∀ a ∈ l, a.y + 2 < py := by
  induction l with
  | nil => exact ⟨rfl, by simp⟩
  | cons a tl ih =>
    by_cases hc : py ≤ a.y + 1 + 1
    · simp [descendAliens, hc] at h
    · simp only [descendAliens, if_neg hc] at h ⊢
      obtain ⟨he, hall⟩ := ih h
      refine ⟨by rw [he]; rfl, ?_⟩
      intro b hb
      rcases List.mem_cons.mp hb with hb | hb
      · subst hb; omega
      · exact hall b hb

lemma descendAliens_true (py : Nat) (l : List Alien)
    (h : (descendAliens py l).2 = true) :
    ∃ n, n < l.length ∧
      (descendAliens py l).1
        = (l.take (n+1)).map (fun a => { x := a.x, y := a.y + 1 }) ++ l.drop (n+1) ∧
      (∀ a ∈ l.take n, a.y + 2 < py) ∧
      ∃ a, l[n]? = some a ∧ py ≤ a.y + 2 := by
  induction l with
  | nil => simp [descendAliens] at h
  | cons a tl ih =>
    by_cases hc : py ≤ a.y + 1 + 1
    · refine ⟨0, by simp, ?_, by simp, a, by simp, by omega⟩
      simp [descendAliens, hc]
    · simp only [descendAliens, if_neg hc] at h ⊢
      obtain ⟨n, hn, he, hall, b, hb, hpy⟩ := ih h
      refine ⟨n + 1, by simpa using hn, ?_, ?_, b, by simpa using hb, hpy⟩
      · simp only [List.take_succ_cons, List.map_cons, List.drop_succ_cons, List.cons_append]
        rw [he]
      · intro c hc2
        rcases List.mem_cons.mp (by simpa using hc2) with hc3 | hc3
        · subst hc3; omega
        · exact hall c hc3

lemma descendAliens_true_iff (py : Nat) (l : List Alien) :
    (descendAliens py l).2 = true ↔ ∃ a ∈ l, py ≤ a.y + 2 := by
  constructor
  · intro h
    obtain ⟨n, hn, _, _, a, ha, hpy⟩ := descendAliens_true py l h
    obtain ⟨hlt, he⟩ := List.getElem?_eq_some_iff.mp ha
    exact ⟨a, he ▸ List.getElem_mem hlt, hpy⟩
  · intro ⟨a, ha, hpy⟩
    induction l with
    | nil => simp at ha
    | cons b tl ih =>
      by_cases hc : py ≤ b.y + 1 + 1
      · simp [descendAliens, hc]
      · simp only [descendAliens, if_neg hc]
        rcases List.mem_cons.mp ha with hb | hb
        · subst hb; omega
        · exact ih hb

/-! ## The shape of one full tick -/

lemma update_state_terminal (now : Nat) (s : GameState) (h : s.game_over = true) :
    update_state now s = s := by
  simp [update_state, h]

lemma update_state_death (now : Nat) (s : GameState) (h : s.game_over = false)
    (h2 : (playerHitStep (moveShots s)).game_over = true) :
    update_state now s = playerHitStep (moveShots s) := by
  simp only [update_state, h, Bool.false_eq_true, if_false, h2, if_true]

lemma update_state_spawn (now : Nat) (s : GameState) (h : s.game_over = false)
    (h2 : (playerHitStep (moveShots s)).game_over = false)
    (h3 : (fireStep now (collisionStep (playerHitStep (moveShots s)))).aliens.isEmpty = true) :
    update_state now s
      = spawn_new_wave (fireStep now (collisionStep (playerHitStep (moveShots s)))) := by
  simp only [update_state, h, Bool.false_eq_true, if_false, h2, h3, if_true]

lemma update_state_move (now : Nat) (s : GameState) (h : s.game_over = false)
    (h2 : (playerHitStep (moveShots s)).game_over = false)
    (h3 : (fireStep now (collisionStep (playerHitStep (moveShots s)))).aliens.isEmpty = false) :
    update_state now s
      = moveAliens (fireStep now (collisionStep (playerHitStep (moveShots s)))) := by
  simp only [update_state, h, Bool.false_eq_true, if_false, h2, h3, if_true]

lemma playerHitStep_alien_shots (t : GameState) :
    (playerHitStep t).alien_shots
      = t.alien_shots.filter (fun sh => !hitsPlayer t.player sh) := by
  simp only [playerHitStep]; split <;> rfl

lemma playerHitStep_hit (t : GameState)
    (h : t.alien_shots.any (fun sh => hitsPlayer t.player sh) = true) :
    (playerHitStep t).lives = t.lives - 1 ∧
    (playerHitStep t).player.x = MAX_PLAYER_X / 2 ∧
    (playerHitStep t).game_over = (if t.lives - 1 = 0 then true else t.game_over) := by
  simp [playerHitStep, h]

lemma playerHitStep_nohit (t : GameState)
    (h : t.alien_shots.any (fun sh => hitsPlayer t.player sh) = false) :
    playerHitStep t
      = { t with alien_shots := t.alien_shots.filter (fun sh => !hitsPlayer t.player sh) } := by
  simp only [playerHitStep, h, Bool.false_eq_true, if_false]

lemma moveShots_shots_eq (s : GameState) :
    (moveShots s).shots
      = (s.shots.map (fun sh => { sh with y := sh.y - 1 })).filter (fun sh => 1 < sh.y) := by
  simp only [moveShots]
  split
  · rename_i h; rw [List.isEmpty_iff.mp h]; rfl
  · rfl

lemma moveShots_alien_shots_eq (s : GameState) :
    (moveShots s).alien_shots
      = (s.alien_shots.map (fun sh => { sh with y := sh.y + 1 })).filter
          (fun sh => sh.y < MAX_PLAYER_Y + 2) := by
  simp only [moveShots]
  split
  · rename_i h; rw [List.isEmpty_iff.mp h]; rfl
  · rfl

lemma moveShots_shots_mem (s : GameState) :
    ∀ sh ∈ (moveShots s).shots, 1 < sh.y := by
  rw [moveShots_shots_eq]
  intro sh hsh
  exact of_decide_eq_true (List.mem_filter.mp hsh).2

lemma moveShots_alien_shots_mem (s : GameState) :
    ∀ sh ∈ (moveShots s).alien_shots, sh.y < MAX_PLAYER_Y + 2 := by
  rw [moveShots_alien_shots_eq]
  intro sh hsh
  exact of_decide_eq_true (List.mem_filter.mp hsh).2

lemma update_shots_sub (now : Nat) (s : GameState) (h0 : s.game_over = false) :
    (update_state now s).shots.Sublist (moveShots s).shots := by
  by_cases h2 : (playerHitStep (moveShots s)).game_over
  · rw [update_state_death now s h0 h2, playerHitStep_shots]
  · by_cases h3 : (fireStep now (collisionStep (playerHitStep (moveShots s)))).aliens.isEmpty
    · rw [update_state_spawn now s h0 (by simpa using h2) h3]
      simp
    · rw [update_state_move now s h0 (by simpa using h2) (by simpa using h3)]
      rw [moveAliens_shots, fireStep_shots]
      have := collisionStep_shots_sublist (playerHitStep (moveShots s))
      rwa [playerHitStep_shots] at this

lemma update_alien_shots_bound (now : Nat) (s : GameState) (h0 : s.game_over = false)
    (ha : ∀ a ∈ s.aliens, a.y ≤ 19) :
    ∀ sh ∈ (update_state now s).alien_shots, sh.y < MAX_PLAYER_Y + 2 := by
  have hmem2 : ∀ sh ∈ (playerHitStep (moveShots s)).alien_shots, sh.y < MAX_PLAYER_Y + 2 := by
    rw [playerHitStep_alien_shots]
    intro sh hsh
    exact moveShots_alien_shots_mem s sh (List.mem_filter.mp hsh).1
  by_cases h2 : (playerHitStep (moveShots s)).game_over
  · rw [update_state_death now s h0 h2]
    exact hmem2
  · by_cases h3 : (fireStep now (collisionStep (playerHitStep (moveShots s)))).aliens.isEmpty
    · rw [update_state_spawn now s h0 (by simpa using h2) h3]
      simp
    · rw [update_state_move now s h0 (by simpa using h2) (by simpa using h3)]
      rw [moveAliens_alien_shots]
      rcases fireStep_cases now (collisionStep (playerHitStep (moveShots s))) with hf | ⟨sho, hmem, _, hf⟩
      · rw [hf, collisionStep_alien_shots]
        exact hmem2
      · rw [hf]
        intro sh hsh
        rcases List.mem_append.mp hsh with hsh | hsh
        · rw [collisionStep_alien_shots] at hsh
          exact hmem2 sh hsh
        · have hmem' : sho ∈ s.aliens := by
            have hsub := collisionStep_aliens_sublist (playerHitStep (moveShots s))
            rw [playerHitStep_aliens, moveShots_aliens] at hsub
            exact hsub.mem hmem
          have := ha sho hmem'
          simp only [List.mem_singleton] at hsh
          subst hsh
          simp only [MAX_PLAYER_Y]
          omega

/-! ## Concrete states used as witnesses and counterexamples -/

/-- Swarm moving Right with an alien at `x = 37 = MAX_PLAYER_X - 1`
(one cell short of the spec's claimed boundary of 38). -/
def stateAt37 : GameState :=
  { player := { x := 19, y := 20 }, shots := [], aliens := [{ x := 37, y := 2 }],
    alien_shots := [], last_alien_shot := 0, alien_direction := AlienDirection.Right,
    score := 0, lives := 3, game_over := false }

/-- Swarm moving Right with an alien far from any wall. -/
def stateNoWall : GameState :=
  { player := { x := 19, y := 20 }, shots := [], aliens := [{ x := 5, y := 2 }],
    alien_shots := [], last_alien_shot := 0, alien_direction := AlienDirection.Right,
    score := 0, lives := 3, game_over := false }

/-- Boundary tick in which the first alien in iteration order triggers
the game over during the descent, leaving the second alien unmoved. -/
def stateDescend : GameState :=
  { player := { x := 19, y := 20 }, shots := [],
    aliens := [{ x := 37, y := 18 }, { x := 5, y := 5 }],
    alien_shots := [], last_alien_shot := 0, alien_direction := AlienDirection.Right,
    score := 0, lives := 3, game_over := false }

/-- Swarm moving Left with an alien at the left wall, low enough that
the descent does not end the game. -/
def stateWallL : GameState :=
  { player := { x := 19, y := 20 }, shots := [], aliens := [{ x := 0, y := 2 }],
    alien_shots := [], last_alien_shot := 0, alien_direction := AlienDirection.Left,
    score := 0, lives := 3, game_over := false }

/-- An alien shot at `y = 21`, which after moving down sits at
`y = 22 = MAX_PLAYER_Y + 2` and is culled by the code. -/
def stateShot21 : GameState :=
  { player := { x := 19, y := 20 }, shots := [], aliens := [{ x := 5, y := 2 }],
    alien_shots := [{ x := 0, y := 21 }], last_alien_shot := 0,
    alien_direction := AlienDirection.Right, score := 0, lives := 3, game_over := false }

/-- One life left and one alien shot about to land on the player. -/
def stateLastLife : GameState :=
  { player := { x := 19, y := 20 }, shots := [], aliens := [{ x := 5, y := 2 }],
    alien_shots := [{ x := 19, y := 19 }], last_alien_shot := 0,
    alien_direction := AlienDirection.Right, score := 0, lives := 1, game_over := false }

/-- Three lives and one alien shot about to land on the player. -/
def stateHit3 : GameState :=
  { player := { x := 19, y := 20 }, shots := [], aliens := [{ x := 5, y := 2 }],
    alien_shots := [{ x := 19, y := 19 }, { x := 20, y := 20 }, { x := 0, y := 5 }],
    last_alien_shot := 0, alien_direction := AlienDirection.Right,
    score := 0, lives := 3, game_over := false }

/-- A terminal state. -/
def stateOver : GameState := { initState with game_over := true }

/-! ## Claim theorems -/

/-- C1: in the player-hit step of `advance`, every enemy shot
overlapping the player's 3x2 box is removed, any number of
simultaneous overlapping shots decrements lives by exactly 1, the
player's x resets to `MAX_PLAYER_X / 2` (the board mid-point 19), and
when lives reach 0 the terminal flag is set and the remaining steps
of the tick are skipped (`update_state` returns the state right after
the player-hit step). -/
theorem C1_player_hit (now : Nat) (s : GameState) (h : s.game_over = false) :
    (playerHitStep (moveShots s)).alien_shots
        = (moveShots s).alien_shots.filter (fun sh => !hitsPlayer s.player sh) ∧
    ((moveShots s).alien_shots.any (fun sh => hitsPlayer s.player sh) = true →
      (playerHitStep (moveShots s)).lives = s.lives - 1 ∧
      (playerHitStep (moveShots s)).player.x = MAX_PLAYER_X / 2) ∧
    ((moveShots s).alien_shots.any (fun sh => hitsPlayer s.player sh) = false →
      (playerHitStep (moveShots s)).lives = s.lives ∧
      (playerHitStep (moveShots s)).player = s.player ∧
      (playerHitStep (moveShots s)).game_over = false) ∧
    ((moveShots s).alien_shots.any (fun sh => hitsPlayer s.player sh) = true →
      s.lives = 1 →
      (playerHitStep (moveShots s)).game_over = true ∧
      update_state now s = playerHitStep (moveShots s)) := by
  refine ⟨playerHitStep_alien_shots (moveShots s), ?_, ?_, ?_⟩
  · intro hh
    obtain ⟨h1, h2, _⟩ := playerHitStep_hit (moveShots s) hh
    exact ⟨by rw [h1, moveShots_lives], h2⟩
  · intro hh
    rw [playerHitStep_nohit (moveShots s) hh]
    exact ⟨moveShots_lives s, moveShots_player s, (moveShots_game_over s).trans h⟩
  · intro hh hl
    obtain ⟨_, _, h3⟩ := playerHitStep_hit (moveShots s) hh
    have hover : (playerHitStep (moveShots s)).game_over = true := by
      rw [h3, moveShots_lives, hl]
      simp
    exact ⟨hover, update_state_death now s h hover⟩

/-- Witness for C1 at `stateLastLife`: the hit empties the lives and
ends both the game and the tick. -/
theorem C1_witness :
    (playerHitStep (moveShots stateLastLife)).game_over = true ∧
    update_state 0 stateLastLife = playerHitStep (moveShots stateLastLife) :=
  (C1_player_hit 0 stateLastLife rfl).2.2.2 (by decide) rfl

/-- C2 fails as stated: with the swarm moving Right and an enemy at
`x = 37` (below the claimed boundary `x ≥ 38`), the claim predicts no
reversal and a one-cell move to `x = 38`, but the code reverses the
direction (its boundary is `x ≥ MAX_PLAYER_X - 1 = 37`) and descends. -/
theorem C2_counterexample :
    ¬ ((update_state 0 stateAt37).alien_direction = AlienDirection.Right ∧
       (update_state 0 stateAt37).aliens = [{ x := 38, y := 2 }]) := by
  decide

/-- C2 (amended): the direction reverses exactly when some enemy is at
the directional boundary, where the boundary is `x = 0` for Left and
`x ≥ MAX_PLAYER_X - 1 = 37` (board_width − 2, not board_width − 1) for
Right; with no enemy at the boundary every enemy moves exactly one
cell horizontally in the current direction and no enemy's y changes. -/
theorem C2_swarm_boundary (s : GameState) :
    (wallHit s = true ↔ ∃ a ∈ s.aliens,
        (match s.alien_direction with
         | AlienDirection.Left => a.x = 0
         | AlienDirection.Right => MAX_PLAYER_X - 1 ≤ a.x)) ∧
    ((moveAliens s).alien_direction ≠ s.alien_direction ↔ wallHit s = true) ∧
    (wallHit s = false →
      (moveAliens s).aliens = s.aliens.map (fun a =>
        match s.alien_direction with
        | AlienDirection.Left => { x := a.x - 1, y := a.y }
        | AlienDirection.Right => { x := a.x + 1, y := a.y }) ∧
      (moveAliens s).alien_direction = s.alien_direction) := by
  have hflip : ∀ d : AlienDirection, flipDir d ≠ d := by
    intro d; cases d <;> simp [flipDir]
  refine ⟨?_, ?_, ?_⟩
  · unfold wallHit
    cases s.alien_direction <;> simp [List.any_eq_true]
  · by_cases hw : wallHit s
    · unfold moveAliens
      rw [if_pos hw]
      simpa [hw] using hflip s.alien_direction
    · unfold moveAliens
      rw [if_neg hw]
      simpa using hw
  · intro hw
    unfold moveAliens
    rw [if_neg (by simp [hw])]
    exact ⟨rfl, rfl⟩

/-- Witness for C2 (amended) at `stateNoWall`: no boundary, so the
single alien moves one cell right with unchanged direction. -/
theorem C2_witness :
    (moveAliens stateNoWall).aliens = [{ x := 6, y := 2 }] ∧
    (moveAliens stateNoWall).alien_direction = AlienDirection.Right := by
  have h := (C2_swarm_boundary stateNoWall).2.2 (by decide)
  exact ⟨by rw [h.1]; rfl, h.2⟩

/-- C3 fails as stated: on the boundary tick of `stateDescend`, the
first alien's descent triggers the terminal flag and the loop returns
early, so the second alien's y does NOT increase by 1 (the claim
predicts both aliens at y+1). -/
theorem C3_counterexample :
    wallHit stateDescend = true ∧
    (update_state 0 stateDescend).game_over = true ∧
    ¬ ((update_state 0 stateDescend).aliens
        = [{ x := 37, y := 19 }, { x := 5, y := 6 }]) := by
  decide

/-- C3 (amended): on a boundary tick the direction flips and no alien
moves horizontally; the aliens descend one row each in iteration
order, stopping at the first alien whose new bottom edge (`y + 1`)
reaches the player's row — if one exists the terminal flag is set and
the aliens after it are left unmoved, otherwise every alien's y
increases by exactly 1.  (`moveAliens` is the last step of
`update_state`, so nothing further runs on a terminal descent.) -/
theorem C3_wall_descent (s : GameState) (h0 : s.game_over = false)
    (hw : wallHit s = true) :
    (moveAliens s).alien_direction = flipDir s.alien_direction ∧
    (moveAliens s).aliens.map Alien.x = s.aliens.map Alien.x ∧
    ((moveAliens s).game_over = true ↔ ∃ a ∈ s.aliens, s.player.y ≤ a.y + 2) ∧
    ((moveAliens s).game_over = false →
      (moveAliens s).aliens = s.aliens.map (fun a => { x := a.x, y := a.y + 1 })) ∧
    ((moveAliens s).game_over = true →
      ∃ n, n < s.aliens.length ∧
        (moveAliens s).aliens
          = (s.aliens.take (n+1)).map (fun a => { x := a.x, y := a.y + 1 })
            ++ s.aliens.drop (n+1) ∧
        (∀ a ∈ s.aliens.take n, a.y + 2 < s.player.y) ∧
        ∃ a, s.aliens[n]? = some a ∧ s.player.y ≤ a.y + 2) := by
  unfold moveAliens
  rw [if_pos hw]
  dsimp only
  rw [h0, Bool.or_false]
  refine ⟨rfl, descendAliens_x s.player.y s.aliens, descendAliens_true_iff s.player.y s.aliens,
    ?_, ?_⟩
  · intro hfalse
    exact (descendAliens_false s.player.y s.aliens hfalse).1
  · intro htrue
    exact descendAliens_true s.player.y s.aliens htrue

/-- Witness for C3 (amended) at `stateWallL`: left-wall alien descends
one row while the direction flips to Right, without a game over. -/
theorem C3_witness :
    (moveAliens stateWallL).alien_direction = AlienDirection.Right ∧
    (moveAliens stateWallL).aliens = [{ x := 0, y := 3 }] := by
  have h := C3_wall_descent stateWallL rfl (by decide)
  refine ⟨h.1, ?_⟩
  rw [h.2.2.2.1 (by decide)]
  rfl

/-- C4 fails as stated: the code culls a moved enemy shot already at
`y = 22 = MAX_PLAYER_Y + 2` (i.e. board_height + 1 = 22), while the
claim predicts culling only at `y ≥ 23` (board_height + 2 with
board_height = 21), so the shot of `stateShot21` should survive. -/
theorem C4_counterexample :
    (moveShots stateShot21).alien_shots = [] ∧
    ¬ ((moveShots stateShot21).alien_shots = [{ x := 0, y := 22 }]) := by
  decide

/-- C4 (amended): every player shot's y decreases by 1 and every enemy
shot's y increases by 1; then, before any collision check, a player
shot is discarded iff its new `y ≤ 1` and an enemy shot is discarded
iff its new `y ≥ MAX_PLAYER_Y + 2 = 22` (one less than the claimed
`board_height + 2 = 23`); consequently after `update_state` returns no
player shot has `y ≤ 1` and no enemy shot has `y ≥ 22` (the latter
given the swarm below row 19, as in every reachable non-terminal
state). -/
theorem C4_projectile_motion (now : Nat) (s : GameState) (h0 : s.game_over = false)
    (ha : ∀ a ∈ s.aliens, a.y ≤ 19) :
    (moveShots s).shots
        = (s.shots.map (fun sh => { sh with y := sh.y - 1 })).filter (fun sh => 1 < sh.y) ∧
    (moveShots s).alien_shots
        = (s.alien_shots.map (fun sh => { sh with y := sh.y + 1 })).filter
            (fun sh => sh.y < MAX_PLAYER_Y + 2) ∧
    (∀ sh ∈ (update_state now s).shots, ¬ sh.y ≤ 1) ∧
    (∀ sh ∈ (update_state now s).alien_shots, sh.y < MAX_PLAYER_Y + 2) := by
  refine ⟨moveShots_shots_eq s, moveShots_alien_shots_eq s, ?_,
    update_alien_shots_bound now s h0 ha⟩
  intro sh hsh
  have := moveShots_shots_mem s sh ((update_shots_sub now s h0).mem hsh)
  omega

/-- Witness for C4 (amended) at `stateShot21`. -/
theorem C4_witness :
    (moveShots stateShot21).alien_shots
        = (stateShot21.alien_shots.map (fun sh => { sh with y := sh.y + 1 })).filter
            (fun sh => sh.y < MAX_PLAYER_Y + 2) ∧
    ∀ sh ∈ (update_state 0 stateShot21).alien_shots, sh.y < MAX_PLAYER_Y + 2 :=
  ⟨(C4_projectile_motion 0 stateShot21 rfl (by decide)).2.1,
   (C4_projectile_motion 0 stateShot21 rfl (by decide)).2.2.2⟩

/-- C8: a terminal state is absorbing — `update_state` returns it
unchanged, every field included. -/
theorem C8_terminal_noop (now : Nat) (s : GameState) (h : s.game_over = true) :
    update_state now s = s :=
  update_state_terminal now s h

/-- Witness for C8 at a concrete terminal state. -/
theorem C8_witness : update_state 0 stateOver = stateOver :=
  C8_terminal_noop 0 stateOver rfl

/-- One player shot above two aliens. -/
def stateCollide : GameState :=
  { player := { x := 19, y := 20 }, shots := [{ x := 3, y := 2 }],
    aliens := [{ x := 2, y := 2 }, { x := 7, y := 2 }], alien_shots := [],
    last_alien_shot := 0, alien_direction := AlienDirection.Right,
    score := 0, lives := 3, game_over := false }

/-- One player shot one cell above the last alien. -/
def stateOneAlien : GameState :=
  { player := { x := 19, y := 20 }, shots := [{ x := 3, y := 3 }],
    aliens := [{ x := 2, y := 2 }], alien_shots := [], last_alien_shot := 0,
    alien_direction := AlienDirection.Right, score := 0, lives := 3, game_over := false }

/-- C5: in the shot-vs-enemy step, a shot kills the first enemy in
iteration order that is still alive and whose 3x2 box contains the
shot's cell (`shootOne` equals the spec-level `specShootOne`, which
takes `findIdx?` of the live-and-overlapping test and clears exactly
that liveness flag); each kill adds exactly 10 to the score, the
number of removed shots equals the number of removed enemies, and
dead enemies and consumed shots are removed only at the end of the
pass while all surviving shots and enemies are unchanged and in
order (sublists of the inputs); the other fields are untouched. -/
theorem C5_shot_alien_collision (s : GameState) (h1 : s.shots ≠ []) (h2 : s.aliens ≠ []) :
    (∀ (sh : Shot) (l : List (Alien × Bool)), shootOne sh l = specShootOne sh l) ∧
    (collisionStep s).aliens.Sublist s.aliens ∧
    (collisionStep s).shots.Sublist s.shots ∧
    (collisionStep s).score
      = s.score + 10 * (s.aliens.length - (collisionStep s).aliens.length) ∧
    (collisionStep s).shots.length + (s.aliens.length - (collisionStep s).aliens.length)
      = s.shots.length ∧
    (collisionStep s).alien_shots = s.alien_shots ∧
    (collisionStep s).player = s.player ∧
    (collisionStep s).lives = s.lives ∧
    (collisionStep s).game_over = s.game_over := by
  obtain ⟨hsc, hlen⟩ := collisionStep_run s h1 h2
  exact ⟨shootOne_eq_spec, collisionStep_aliens_sublist s, collisionStep_shots_sublist s,
    hsc, hlen, collisionStep_alien_shots s, collisionStep_player s, collisionStep_lives s,
    collisionStep_game_over s⟩

/-- Witness for C5 at `stateCollide`. -/
theorem C5_witness :
    (collisionStep stateCollide).score
        = stateCollide.score
          + 10 * (stateCollide.aliens.length - (collisionStep stateCollide).aliens.length) ∧
    (collisionStep stateCollide).shots.Sublist stateCollide.shots ∧
    (collisionStep stateCollide).aliens.Sublist stateCollide.aliens :=
  ⟨(C5_shot_alien_collision stateCollide (by decide) (by decide)).2.2.2.1,
   (C5_shot_alien_collision stateCollide (by decide) (by decide)).2.2.1,
   (C5_shot_alien_collision stateCollide (by decide) (by decide)).2.1⟩

/-- C6: whenever the enemy-firing step changes the state at all, it
appends exactly one enemy shot at `(shooter.x + 1, shooter.y + 2)`
whose shooter is a member of the swarm and front-rank: no enemy `b`
whose column range `[b.x, b.x + 3)` contains the shooter's x has a
strictly greater y.  This holds for every state and every timestamp. -/
theorem C6_front_rank (now : Nat) (s : GameState) :
    fireStep now s = s ∨
    ∃ shooter : Alien, shooter ∈ s.aliens ∧
      isFrontRank s.aliens shooter = true ∧
      (∀ b ∈ s.aliens, inColRange b shooter.x = true → ¬ shooter.y < b.y) ∧
      (fireStep now s).alien_shots
        = s.alien_shots ++ [{ x := shooter.x + 1, y := shooter.y + 2 }] := by
  rcases fireStep_cases now s with h | ⟨sho, hmem, hfr, heq⟩
  · exact Or.inl h
  · refine Or.inr ⟨sho, hmem, hfr, ?_, by rw [heq]⟩
    intro b hb hlt
    have hany : s.aliens.any (fun b => inColRange b sho.x && sho.y < b.y) = false := by
      simpa [isFrontRank] using hfr
    have hb2 := (List.any_eq_false.mp hany) b hb
    simp [hlt] at hb2
    omega

/-- C7: a tick that empties the swarm (and does not end by player
death) respawns the full 2x6 formation at `(col*5+2, row*4+2)`,
clears both shot lists, and ends the tick right after the spawn, so
the swarm-movement step does not run (the direction is unchanged). -/
theorem C7_wave_respawn (now : Nat) (s : GameState) (h0 : s.game_over = false)
    (h1 : (playerHitStep (moveShots s)).game_over = false)
    (h2 : (collisionStep (playerHitStep (moveShots s))).aliens = []) :
    update_state now s
        = spawn_new_wave (fireStep now (collisionStep (playerHitStep (moveShots s)))) ∧
    (update_state now s).aliens
        = (List.range ALIEN_ROWS).flatMap (fun row =>
            (List.range ALIEN_COLS).map (fun col =>
              { x := col * HORIZONTAL_SPACING + 2,
                y := row * VERTICAL_SPACING + 2 : Alien })) ∧
    (update_state now s).aliens ≠ [] ∧
    (update_state now s).shots = [] ∧
    (update_state now s).alien_shots = [] ∧
    (update_state now s).alien_direction = s.alien_direction := by
  have h3 : (fireStep now (collisionStep (playerHitStep (moveShots s)))).aliens.isEmpty
      = true := by
    rw [fireStep_aliens, h2]; rfl
  have heq := update_state_spawn now s h0 h1 h3
  refine ⟨heq, by rw [heq]; rfl, ?_, by rw [heq]; rfl, by rw [heq]; rfl, ?_⟩
  · rw [heq]
    have hfresh : (spawn_new_wave
        (fireStep now (collisionStep (playerHitStep (moveShots s))))).aliens
        = (List.range ALIEN_ROWS).flatMap (fun row =>
            (List.range ALIEN_COLS).map (fun col =>
              { x := col * HORIZONTAL_SPACING + 2,
                y := row * VERTICAL_SPACING + 2 : Alien })) := rfl
    rw [hfresh]
    decide
  · rw [heq, spawn_new_wave_dir, fireStep_dir, collisionStep_dir, playerHitStep_dir,
      moveShots_dir]

/-- Witness for C7 at `stateOneAlien`: killing the last alien
respawns the wave and clears the shot lists in the same tick. -/
theorem C7_witness :
    (update_state 0 stateOneAlien).aliens ≠ [] ∧
    (update_state 0 stateOneAlien).shots = [] ∧
    (update_state 0 stateOneAlien).alien_shots = [] := by
  have h := C7_wave_respawn 0 stateOneAlien rfl (by decide) (by decide)
  exact ⟨h.2.2.1, h.2.2.2.1, h.2.2.2.2.1⟩

/-! ## Reachability invariant -/

/-- The inductive invariant of the driver loop: the fire cap holds,
live player shots sit at `y ≥ 2`, a non-terminal state has a life
left, and the player's row never changes. -/
def StateInv (s : GameState) : Prop :=
  s.shots.length ≤ MAX_SHOTS ∧
  (∀ sh ∈ s.shots, 2 ≤ sh.y) ∧
  (s.game_over = false → 1 ≤ s.lives) ∧
  s.player.y = MAX_PLAYER_Y

lemma inv_init : StateInv initState := by
  unfold StateInv initState spawn_new_wave
  decide

lemma moveAliens_game_over_of (t : GameState)
    (h : (moveAliens t).game_over = false) : t.game_over = false := by
  revert h
  unfold moveAliens
  split
  · dsimp only
    intro h
    exact (Bool.or_eq_false_iff.mp h).2
  · exact fun h => h

lemma update_player_y (now : Nat) (s : GameState) :
    (update_state now s).player.y = s.player.y := by
  by_cases h0 : s.game_over = true
  · rw [update_state_terminal now s h0]
  · have h0' : s.game_over = false := by simpa using h0
    by_cases h2 : (playerHitStep (moveShots s)).game_over
    · rw [update_state_death now s h0' h2, playerHitStep_player_y, moveShots_player]
    · by_cases h3 : (fireStep now (collisionStep (playerHitStep (moveShots s)))).aliens.isEmpty
      · rw [update_state_spawn now s h0' (by simpa using h2) h3, spawn_new_wave_player,
          fireStep_player, collisionStep_player, playerHitStep_player_y, moveShots_player]
      · rw [update_state_move now s h0' (by simpa using h2) (by simpa using h3),
          moveAliens_player, fireStep_player, collisionStep_player, playerHitStep_player_y,
          moveShots_player]

lemma update_lives_eq (now : Nat) (s : GameState) (h0 : s.game_over = false) :
    (update_state now s).lives = (playerHitStep (moveShots s)).lives := by
  by_cases h2 : (playerHitStep (moveShots s)).game_over
  · rw [update_state_death now s h0 h2]
  · by_cases h3 : (fireStep now (collisionStep (playerHitStep (moveShots s)))).aliens.isEmpty
    · rw [update_state_spawn now s h0 (by simpa using h2) h3, spawn_new_wave_lives,
        fireStep_lives, collisionStep_lives]
    · rw [update_state_move now s h0 (by simpa using h2) (by simpa using h3),
        moveAliens_lives, fireStep_lives, collisionStep_lives]

lemma update_game_over_of (now : Nat) (s : GameState) (h0 : s.game_over = false)
    (h : (update_state now s).game_over = false) :
    (playerHitStep (moveShots s)).game_over = false := by
  by_cases h2 : (playerHitStep (moveShots s)).game_over
  · rw [update_state_death now s h0 h2] at h
    rw [h] at h2
    exact absurd h2 (by simp)
  · simpa using h2

lemma inv_update (now : Nat) (s : GameState) (h : StateInv s) :
    StateInv (update_state now s) := by
  by_cases h0 : s.game_over = true
  · rw [update_state_terminal now s h0]; exact h
  · have h0' : s.game_over = false := by simpa using h0
    obtain ⟨hlen, hys, hlives, hpy⟩ := h
    refine ⟨?_, ?_, ?_, ?_⟩
    · have h1 : (moveShots s).shots.length ≤ s.shots.length := by
        rw [moveShots_shots_eq]
        exact (List.length_filter_le _ _).trans (by rw [List.length_map])
      exact ((update_shots_sub now s h0').length_le).trans (h1.trans hlen)
    · intro sh hsh
      exact moveShots_shots_mem s sh ((update_shots_sub now s h0').mem hsh)
    · intro hgo
      rw [update_lives_eq now s h0']
      have h2go := update_game_over_of now s h0' hgo
      by_cases hh : (moveShots s).alien_shots.any
          (fun sh => hitsPlayer (moveShots s).player sh) = true
      · obtain ⟨hl, _, hg⟩ := playerHitStep_hit _ hh
        rw [hl, moveShots_lives]
        rw [hg, moveShots_lives, moveShots_game_over] at h2go
        by_cases hz : s.lives - 1 = 0
        · rw [if_pos hz] at h2go
          exact absurd h2go (by simp)
        · omega
      · rw [playerHitStep_nohit _ (by simpa using hh)]
        exact hlives h0'
    · rw [update_player_y now s]
      exact hpy

lemma inv_input (i : Intent) (s : GameState) (h : StateInv s) :
    StateInv (handleInput i s) := by
  obtain ⟨hlen, hys, hlives, hpy⟩ := h
  unfold StateInv handleInput
  cases i with
  | MoveLeft =>
    by_cases hc : (decide (0 < s.player.x) && !s.game_over) = true
    · rw [if_pos hc]
      exact ⟨hlen, hys, hlives, hpy⟩
    · rw [if_neg hc]
      exact ⟨hlen, hys, hlives, hpy⟩
  | MoveRight =>
    by_cases hc : (decide (s.player.x < MAX_PLAYER_X - 2) && !s.game_over) = true
    · rw [if_pos hc]
      exact ⟨hlen, hys, hlives, hpy⟩
    · rw [if_neg hc]
      exact ⟨hlen, hys, hlives, hpy⟩
  | Fire =>
    by_cases hc : (decide (s.shots.length < MAX_SHOTS) && !s.game_over) = true
    · rw [if_pos hc]
      simp only [Bool.and_eq_true, decide_eq_true_eq, Bool.not_eq_true'] at hc
      refine ⟨?_, ?_, hlives, hpy⟩
      · simpa using hc.1
      · intro sh hsh
        rcases List.mem_append.mp hsh with hsh | hsh
        · exact hys sh hsh
        · simp only [List.mem_singleton] at hsh
          subst hsh
          simp only [hpy, MAX_PLAYER_Y]
          omega
    · rw [if_neg hc]
      exact ⟨hlen, hys, hlives, hpy⟩
  | NoOp => exact ⟨hlen, hys, hlives, hpy⟩

lemma inv_reachable (s : GameState) (h : Reachable s) : StateInv s := by
  induction h with
  | init => exact inv_init
  | tick s now _ ih => exact inv_update now s ih
  | input s i _ ih => exact inv_input i s ih

/-- C9: in every reachable state the live player-shot count is at
most `MAX_SHOTS = 10` (and stays so after any input or tick), and a
Fire intent at the cap returns the state unchanged, silently. -/
theorem C9_fire_cap (s : GameState) (h : Reachable s) :
    s.shots.length ≤ MAX_SHOTS ∧
    (s.shots.length = MAX_SHOTS → handleInput Intent.Fire s = s) ∧
    (∀ i : Intent, (handleInput i s).shots.length ≤ MAX_SHOTS) ∧
    (∀ now : Nat, (update_state now s).shots.length ≤ MAX_SHOTS) := by
  have hinv := inv_reachable s h
  refine ⟨hinv.1, ?_, fun i => (inv_input i s hinv).1, fun now => (inv_update now s hinv).1⟩
  intro hfull
  unfold handleInput
  rw [hfull]
  simp

/-- The state after ten Fire intents from the initial state: the shot
list is at the cap. -/
def stateFull : GameState :=
  handleInput Intent.Fire (handleInput Intent.Fire (handleInput Intent.Fire
    (handleInput Intent.Fire (handleInput Intent.Fire (handleInput Intent.Fire
      (handleInput Intent.Fire (handleInput Intent.Fire (handleInput Intent.Fire
        (handleInput Intent.Fire initState)))))))))

lemma stateFull_reachable : Reachable stateFull :=
  Reachable.input _ _ (Reachable.input _ _ (Reachable.input _ _ (Reachable.input _ _
    (Reachable.input _ _ (Reachable.input _ _ (Reachable.input _ _ (Reachable.input _ _
      (Reachable.input _ _ (Reachable.input _ _ Reachable.init)))))))))

/-- Witness for C9 at the capped state: firing an 11th time changes
nothing. -/
theorem C9_witness :
    stateFull.shots.length ≤ MAX_SHOTS ∧
    handleInput Intent.Fire stateFull = stateFull :=
  ⟨(C9_fire_cap stateFull stateFull_reachable).1,
   (C9_fire_cap stateFull stateFull_reachable).2.1 (by decide)⟩

/-- C10: the subtractions `update_state` performs never underflow on
reachable states — every live player shot has `y ≥ 2` when a tick
begins (so `shot.y - 1 ≥ 1`), a non-terminal state has `lives ≥ 1`
(so the hit path's `lives - 1` is safe), and when the swarm moves
Left without a wall hit no alien sits at `x = 0` (so `alien.x - 1`
is safe). -/
theorem C10_no_underflow (s : GameState) (h : Reachable s) :
    (∀ sh ∈ s.shots, 2 ≤ sh.y) ∧
    (s.game_over = false → 1 ≤ s.lives) ∧
    (s.alien_direction = AlienDirection.Left → wallHit s = false →
      ∀ a ∈ s.aliens, a.x ≠ 0) := by
  have hinv := inv_reachable s h
  refine ⟨hinv.2.1, hinv.2.2.1, ?_⟩
  intro hdir hwall a ha hx
  unfold wallHit at hwall
  rw [hdir] at hwall
  have := (List.any_eq_false.mp hwall) a ha
  simp [hx] at this

/-- Witness for C10 at the initial state. -/
theorem C10_witness : 1 ≤ initState.lives :=
  (C10_no_underflow initState Reachable.init).2.1 rfl

end SpaceInvader
